import Mathlib

/-!
Verification of the IEEE 802.11 frame decoder of pypacker
(src/pypacker/layer12/ieee80211.py): the frame-control codec, the
dispatch-key builder and body-decoder registry, and the information-element
sequence decoder.  Every definition below is a shallow embedding of the
corresponding Python source; machine words are modelled as `Nat` (Python
ints are unbounded; the frame-control word is a 16-bit value).
-/

/-! ### Frame sub-type constants (ieee80211.py lines 12-55) -/

def MGMT_TYPE : Nat := 0
def CTL_TYPE : Nat := 1
def DATA_TYPE : Nat := 2

def M_ASSOC_REQ : Nat := 0
def M_ASSOC_RESP : Nat := 1
def M_REASSOC_REQ : Nat := 2
def M_REASSOC_RESP : Nat := 3
def M_PROBE_REQ : Nat := 4
def M_PROBE_RESP : Nat := 5
def M_DISASSOC : Nat := 10
def M_AUTH : Nat := 11
def M_DEAUTH : Nat := 12
def M_BEACON : Nat := 8
def M_ATIM : Nat := 9

def C_BLOCK_ACK_REQ : Nat := 8
def C_BLOCK_ACK : Nat := 9
def C_PS_POLL : Nat := 10
def C_RTS : Nat := 11
def C_CTS : Nat := 12
def C_ACK : Nat := 13
def C_CF_END : Nat := 14
def C_CF_END_ACK : Nat := 15

def D_NORMAL : Nat := 0
def D_DATA_CF_ACK : Nat := 1
def D_DATA_CF_POLL : Nat := 2
def D_DATA_CF_ACK_POLL : Nat := 3
def D_NULL : Nat := 4
def D_CF_ACK : Nat := 5
def D_CF_POLL : Nat := 6
def D_CF_ACK_POLL : Nat := 7
def D_QOS_DATA : Nat := 8
def D_QOS_CF_ACK : Nat := 9
def D_QOS_CF_POLL : Nat := 10
def D_QOS_CF_ACK_POLL : Nat := 11
def D_QOS_NULL : Nat := 12
def D_QOS_CF_POLL_EMPTY : Nat := 14

/-! ### Frame-control masks and shifts (ieee80211.py lines 58-79) -/

def VERSION_MASK : Nat := 0x0300
def TYPE_MASK : Nat := 0x0c00
def SUBTYPE_MASK : Nat := 0xf000
def TO_DS_MASK : Nat := 0x0001
def FROM_DS_MASK : Nat := 0x0002
def MORE_FRAG_MASK : Nat := 0x0004
def RETRY_MASK : Nat := 0x0008
def PWR_MGT_MASK : Nat := 0x0010
def MORE_DATA_MASK : Nat := 0x0020
def PROTECTED_MASK : Nat := 0x0040
def ORDER_MASK : Nat := 0x0080
def VERSION_SHIFT : Nat := 8
def TYPE_SHIFT : Nat := 10
def SUBTYPE_SHIFT : Nat := 12
def TO_DS_SHIFT : Nat := 0
def FROM_DS_SHIFT : Nat := 1
def MORE_FRAG_SHIFT : Nat := 2
def RETRY_SHIFT : Nat := 3
def PWR_MGT_SHIFT : Nat := 4
def MORE_DATA_SHIFT : Nat := 5
def PROTECTED_SHIFT : Nat := 6
def ORDER_SHIFT : Nat := 7

/-- The eleven sub-fields of the 16-bit frame-control word.  `ftype`
stands for the source's `type` property and `protectedF` for its
`protected` property (both are reserved words in Lean). -/
inductive FCField
  | version | ftype | subtype | to_ds | from_ds
  | more_frag | retry | pwr_mgt | more_data | protectedF | order
  deriving DecidableEq, Fintype, Repr

/-- Mask constant used by each field's getter/setter (ieee80211.py 58-68). -/
def fcMask : FCField → Nat
  | .version => VERSION_MASK
  | .ftype => TYPE_MASK
  | .subtype => SUBTYPE_MASK
  | .to_ds => TO_DS_MASK
  | .from_ds => FROM_DS_MASK
  | .more_frag => MORE_FRAG_MASK
  | .retry => RETRY_MASK
  | .pwr_mgt => PWR_MGT_MASK
  | .more_data => MORE_DATA_MASK
  | .protectedF => PROTECTED_MASK
  | .order => ORDER_MASK

/-- Shift constant used by each field's getter/setter (ieee80211.py 69-79). -/
def fcShift : FCField → Nat
  | .version => VERSION_SHIFT
  | .ftype => TYPE_SHIFT
  | .subtype => SUBTYPE_SHIFT
  | .to_ds => TO_DS_SHIFT
  | .from_ds => FROM_DS_SHIFT
  | .more_frag => MORE_FRAG_SHIFT
  | .retry => RETRY_SHIFT
  | .pwr_mgt => PWR_MGT_SHIFT
  | .more_data => MORE_DATA_SHIFT
  | .protectedF => PROTECTED_SHIFT
  | .order => ORDER_SHIFT

/-- Declared bit-width of each field (spec §3 table; the masks are the
width-many ones shifted by the field's shift). -/
def fcWidth : FCField → Nat
  | .version => 2
  | .ftype => 2
  | .subtype => 4
  | _ => 1

/-- Getter `_get_<field>` of IEEE80211 (ieee80211.py 94-158): every getter
is literally `(self.framectl & MASK) >> SHIFT`. -/
def getField (w : Nat) (f : FCField) : Nat := (w &&& fcMask f) >>> fcShift f

/-- Setter `_set_<field>` of IEEE80211 (ieee80211.py 94-158): every setter
is literally `self.framectl = (val << SHIFT) | (self.framectl & ~MASK)`.
Python's `~MASK` on an unbounded int clears exactly the mask bits of the
(16-bit) stored word, which for `w < 2 ^ 16` equals `w &&& (0xffff ^^^ MASK)`. -/
def setField (w : Nat) (f : FCField) (v : Nat) : Nat :=
  (v <<< fcShift f) ||| (w &&& (0xffff ^^^ fcMask f))

/-! ### Dispatch key (ieee80211.py 82-84 and 172-182) -/

def TYPE_FACTORS : List Nat := [16, 32, 64]
def TYPE_FACTOR_PROTECTED : Nat := 128

/-- Dispatch-key computation of `IEEE80211._dissect` (ieee80211.py 172-182):
`TYPE_FACTORS[self.type] + self.subtype + protected_factor`, where
`protected_factor` is 128 when the protected bit is set.  The list
indexing `TYPE_FACTORS[self.type]` raises IndexError in Python when the
2-bit type field holds an out-of-range value; this is modelled by
`Option`: `none` is the raised exception. -/
def dissectKey (w : Nat) : Option Nat :=
  let protected_factor :=
    if getField w FCField.protectedF = 1 then TYPE_FACTOR_PROTECTED else 0
  (TYPE_FACTORS[getField w FCField.ftype]?).map
    (fun tf => tf + getField w FCField.subtype + protected_factor)

/-- Spec §3 dispatch-key builder over an explicit (type, subtype, protected)
triple: `TYPE_FACTOR[type] + subtype + (128 if protected else 0)`. -/
def buildKey (t s : Nat) (p : Bool) : Nat :=
  TYPE_FACTORS.getD t 0 + s + (if p then TYPE_FACTOR_PROTECTED else 0)

/-! ### Frame-body schemas and decoder tables (ieee80211.py 188-456) -/

/-- The distinct frame-body classes of ieee80211.py.  `ProbeResp` is its
own (sub-)class of `Beacon`; `M_ASSOC_RESP` and `M_REASSOC_RESP` both map
to the single class `AssocResp`. -/
inductive FrameSchema
  | Beacon | ProbeReq | ProbeResp | AssocReq | AssocResp
  | Disassoc | ReassocReq | Auth | Deauth
  | RTS | CTS | ACK | BlockAckReq | BlockAck
  | Dataframe | DataframeQos | DataframeSecured | DataframeQosSecured
  deriving DecidableEq, Repr

/-- Management decoder table `m_decoder` (ieee80211.py 318-330), in source
order;  `M_ATIM` is commented out in the source. -/
def m_decoder : List (Nat × FrameSchema) :=
  [(M_BEACON, .Beacon), (M_ASSOC_REQ, .AssocReq), (M_ASSOC_RESP, .AssocResp),
   (M_DISASSOC, .Disassoc), (M_REASSOC_REQ, .ReassocReq),
   (M_REASSOC_RESP, .AssocResp), (M_AUTH, .Auth), (M_PROBE_REQ, .ProbeReq),
   (M_PROBE_RESP, .ProbeResp), (M_DEAUTH, .Deauth)]

/-- Control decoder table `c_decoder` (ieee80211.py 378-384). -/
def c_decoder : List (Nat × FrameSchema) :=
  [(C_RTS, .RTS), (C_CTS, .CTS), (C_ACK, .ACK),
   (C_BLOCK_ACK_REQ, .BlockAckReq), (C_BLOCK_ACK, .BlockAck)]

/-- Data decoder table `d_decoder` (ieee80211.py 441-456). -/
def d_decoder : List (Nat × FrameSchema) :=
  [(D_NORMAL, .Dataframe), (D_DATA_CF_ACK, .Dataframe),
   (D_DATA_CF_POLL, .Dataframe), (D_DATA_CF_ACK_POLL, .Dataframe),
   (D_NULL, .Dataframe), (D_CF_ACK, .Dataframe), (D_CF_POLL, .Dataframe),
   (D_CF_ACK_POLL, .Dataframe), (D_QOS_DATA, .DataframeQos),
   (D_QOS_CF_ACK, .DataframeQos), (D_QOS_CF_POLL, .DataframeQos),
   (D_QOS_CF_ACK_POLL, .DataframeQos), (D_QOS_NULL, .DataframeQos),
   (D_QOS_CF_POLL_EMPTY, .DataframeQos)]

/-- The secured-variant entries added for the data table (ieee80211.py
569-574): for `pos == 2`, a `Dataframe` value additionally registers
`TYPE_FACTORS[2] + key + TYPE_FACTOR_PROTECTED ↦ DataframeSecured`, and a
`DataframeQos` value registers the `DataframeQosSecured` variant. -/
def securedExtra (pos key : Nat) (v : FrameSchema) : List (Nat × FrameSchema) :=
  if pos = 2 then
    if v = FrameSchema.Dataframe then
      [(TYPE_FACTORS.getD 2 0 + key + TYPE_FACTOR_PROTECTED, FrameSchema.DataframeSecured)]
    else if v = FrameSchema.DataframeQos then
      [(TYPE_FACTORS.getD 2 0 + key + TYPE_FACTOR_PROTECTED, FrameSchema.DataframeQosSecured)]
    else []
  else []

/-- One pass of the registry-construction loop (ieee80211.py 564-574):
every entry `key ↦ val` of table number `pos` contributes
`TYPE_FACTORS[pos] + key ↦ val` plus the secured extras. -/
def addEntries (pos : Nat) (d : List (Nat × FrameSchema)) : List (Nat × FrameSchema) :=
  d.flatMap (fun kv => (TYPE_FACTORS.getD pos 0 + kv.1, kv.2) :: securedExtra pos kv.1 kv.2)

/-- Registry `decoder_dict_complete` (ieee80211.py 560-574): the union of the three
tables under the dispatch-key encoding.  The Python dict is modelled as an
association list; all inserted keys are distinct (`decoder_keys_nodup`), so
first-match lookup agrees with the dict. -/
def decoder_dict_complete : List (Nat × FrameSchema) :=
  addEntries 0 m_decoder ++ addEntries 1 c_decoder ++ addEntries 2 d_decoder

/-- Registry lookup: `decoder_dict_complete[key]`, `none` when the key is
absent (the "unrecognized subtype" outcome). -/
def lookupSchema (k : Nat) : Option FrameSchema := decoder_dict_complete.lookup k

/-! ### Information elements (ieee80211.py 461-556) -/

/-- IE id constants (ieee80211.py 534-543). -/
def IE_SSID : Nat := 0
def IE_RATES : Nat := 1
def IE_FH : Nat := 2
def IE_DS : Nat := 3
def IE_CF : Nat := 4
def IE_TIM : Nat := 5
def IE_IBSS : Nat := 6
def IE_HT_CAPA : Nat := 45
def IE_ESR : Nat := 50
def IE_HT_INFO : Nat := 61

/-- The distinct IE schema classes (ieee80211.py 484-531); `IE` is the
generic id+length fallback. -/
inductive IESchema
  | IE | FH | DS | CF | TIM | IBSS
  deriving DecidableEq, Repr

/-- Table `ie_decoder` (ieee80211.py 545-556), in source order. -/
def ie_decoder : List (Nat × IESchema) :=
  [(IE_SSID, .IE), (IE_RATES, .IE), (IE_FH, .FH), (IE_DS, .DS),
   (IE_CF, .CF), (IE_TIM, .TIM), (IE_IBSS, .IBSS), (IE_HT_CAPA, .IE),
   (IE_ESR, .IE), (IE_HT_INFO, .IE)]

/-- Decoder selection of `_unpack_ies` (ieee80211.py 470-474):
`ie_decoder[ie_id]`, with the `KeyError` handler falling back to the
generic `IE` schema. -/
def ieDecoderFor (i : Nat) : IESchema := (ie_decoder.lookup i).getD IESchema.IE

/-- One decoded information element: the id byte, the declared length byte,
the payload bytes of the captured slice (the slice minus its two header
bytes), and the schema class chosen for it. -/
structure IEEntry where
  id : Nat
  len : Nat
  payload : List Nat
  schema : IESchema
  deriving DecidableEq, Repr

/-- Loop of `IEEE80211._unpack_ies` (ieee80211.py 461-482), processing the
remaining suffix of the buffer (offset `off` of the Python loop
corresponds to dropping `off` leading bytes).  Per iteration the loop
reads `ie_id = buf[off]`, `dlen = buf[off+1]`, captures the slice
`buf[off : off+2+dlen]` (Python slicing clamps at the buffer end), and
advances `off += 2 + dlen`.  When only the id byte remains, `buf[off+1]`
raises IndexError, modelled as `none`; the elements accumulated before the
exception are lost, exactly as in Python. -/
def unpackIes : List Nat → Option (List IEEntry)
  | [] => some []
  | [_] => none
  | i :: L :: rest =>
      (unpackIes (rest.drop L)).map
        (fun t => { id := i, len := L, payload := rest.take L,
                    schema := ieDecoderFor i } :: t)
termination_by buf => buf.length
decreasing_by simp [List.length_drop]; omega

/-- Number of iterations the `_unpack_ies` loop performs on a buffer
(counting the final iteration that raises, when it does). -/
def iesSteps : List Nat → Nat
  | [] => 0
  | [_] => 1
  | _ :: L :: rest => 1 + iesSteps (rest.drop L)
termination_by buf => buf.length
decreasing_by simp [List.length_drop]; omega

/-- Byte encoding of a list of (id, payload) pairs as a well-formed IE
concatenation: each group contributes `id :: length :: payload`. -/
def encodeIes (specs : List (Nat × List Nat)) : List Nat :=
  specs.flatMap (fun g => g.1 :: g.2.length :: g.2)

/-- Big-endian decoding of the two framectl bytes,
`struct.unpack(">H", buf[0:2])[0]` (ieee80211.py line 173). -/
def framectlOf (b0 b1 : Nat) : Nat := b0 * 256 + b1

/-- All keys inserted into `decoder_dict_complete` are distinct, so the
association-list model agrees with the Python dict. -/
lemma decoder_keys_nodup : (decoder_dict_complete.map Prod.fst).Nodup := by decide

/-! ### C1 -/

/-- C1 as stated is false: the 2-bit type field can hold the value 3
(control word 0x0C00), and there `TYPE_FACTORS[3]` is out of range — in
Python `IEEE80211._dissect` raises IndexError (modelled by `none`), a hard
failure rather than an "unrecognized" outcome. -/
theorem c1_counterexample :
    getField 0x0C00 FCField.ftype = 3 ∧ (0x0C00 : Nat) < 65536 ∧
    dissectKey 0x0C00 = none := by decide

/-- C1 amended: for every control word whose 2-bit type field is not the
reserved value 3 (hence type ∈ {0,1,2}), the dispatch-key computation of
`_dissect` never fails; an in-range key that is unmapped (here the reserved
management subtype 6, key 22) yields the normal `none` ("unrecognized")
from the registry lookup, not a failure of the key computation. -/
theorem c1_amended :
    (∀ w : Nat, getField w FCField.ftype ≠ 3 → (dissectKey w).isSome = true) ∧
    dissectKey 0x6000 = some 22 ∧ lookupSchema 22 = none := by
  refine ⟨?_, by decide, by decide⟩
  intro w h
  have hle : getField w FCField.ftype ≤ 3 := by
    show (w &&& fcMask FCField.ftype) >>> fcShift FCField.ftype ≤ 3
    have h1 : w &&& fcMask FCField.ftype ≤ fcMask FCField.ftype := Nat.and_le_right
    have h2 : (w &&& fcMask FCField.ftype) >>> fcShift FCField.ftype ≤
        fcMask FCField.ftype >>> fcShift FCField.ftype := by
      simp only [Nat.shiftRight_eq_div_pow]
      exact Nat.div_le_div_right h1
    exact le_trans h2 (by decide)
  have ht : getField w FCField.ftype < 3 := by omega
  have hsome : (TYPE_FACTORS[getField w FCField.ftype]?).isSome = true := by
    rw [List.getElem?_eq_getElem (by simpa [TYPE_FACTORS] using ht)]
    rfl
  simpa [dissectKey] using hsome

/-- Witness for the amended C1 at the concrete beacon control word 0x8000. -/
theorem c1_amended_witness : (dissectKey 0x8000).isSome = true :=
  c1_amended.1 0x8000 (by decide)

/-! ### C3 -/

/-- C3: the dispatch-key function is injective over type ∈ {0,1,2},
subtype ∈ [0,15], protected ∈ {0,1}, and for every entry of each source
table, the built registry at the derived (unprotected) key returns exactly
the schema of the originating table. -/
theorem c3_key_injective_registry_faithful :
    (∀ (t : Fin 3) (s : Fin 16) (p : Bool) (u : Fin 3) (r : Fin 16) (q : Bool),
      buildKey t.val s.val p = buildKey u.val r.val q →
        t.val = u.val ∧ s.val = r.val ∧ p = q) ∧
    (∀ e ∈ m_decoder, lookupSchema (buildKey 0 e.1 false) = some e.2) ∧
    (∀ e ∈ c_decoder, lookupSchema (buildKey 1 e.1 false) = some e.2) ∧
    (∀ e ∈ d_decoder, lookupSchema (buildKey 2 e.1 false) = some e.2) := by
  decide

/-- Witness for C3 at the beacon entry of the management table. -/
theorem c3_witness : lookupSchema (buildKey 0 8 false) = some FrameSchema.Beacon :=
  c3_key_injective_registry_faithful.2.1 (8, FrameSchema.Beacon) (by decide)

/-! ### C4 -/

/-- C4: every data-table entry mapping to `Dataframe` has a registry entry
`64 + k + 128 ↦ DataframeSecured`, every `DataframeQos` entry has
`64 + k + 128 ↦ DataframeQosSecured`, a protected data key never resolves
to the base schema, and no management or control key has a +128 entry. -/
theorem c4_secured_variants :
    (∀ e ∈ d_decoder,
      (e.2 = FrameSchema.Dataframe →
        lookupSchema (64 + e.1 + 128) = some FrameSchema.DataframeSecured) ∧
      (e.2 = FrameSchema.DataframeQos →
        lookupSchema (64 + e.1 + 128) = some FrameSchema.DataframeQosSecured) ∧
      lookupSchema (64 + e.1 + 128) ≠ some e.2) ∧
    (∀ e ∈ m_decoder, lookupSchema (16 + e.1 + 128) = none) ∧
    (∀ e ∈ c_decoder, lookupSchema (32 + e.1 + 128) = none) := by
  decide

/-- Witness for C4 at the plain-data subtype 0 and the beacon entry. -/
theorem c4_witness :
    lookupSchema (64 + 0 + 128) = some FrameSchema.DataframeSecured ∧
    lookupSchema (16 + 8 + 128) = none :=
  ⟨(c4_secured_variants.1 (0, FrameSchema.Dataframe) (by decide)).1 rfl,
   c4_secured_variants.2.1 (8, FrameSchema.Beacon) (by decide)⟩

/-! ### C7 -/

/-- C7: control word 0x8000 (bytes 0x80 0x00, big-endian) extracts
type=0, subtype=8, protected=0, key 24, Beacon; control word 0xC840
extracts type=2, subtype=12, protected=1, key 204, DataframeQosSecured. -/
theorem c7_end_to_end_scenarios :
    framectlOf 0x80 0x00 = 0x8000 ∧
    getField 0x8000 FCField.ftype = 0 ∧
    getField 0x8000 FCField.subtype = 8 ∧
    getField 0x8000 FCField.protectedF = 0 ∧
    dissectKey 0x8000 = some (16 + 8) ∧
    lookupSchema 24 = some FrameSchema.Beacon ∧
    framectlOf 0xC8 0x40 = 0xC840 ∧
    getField 0xC840 FCField.ftype = 2 ∧
    getField 0xC840 FCField.subtype = 12 ∧
    getField 0xC840 FCField.protectedF = 1 ∧
    dissectKey 0xC840 = some (64 + 12 + 128) ∧
    lookupSchema 204 = some FrameSchema.DataframeQosSecured := by
  decide

/-! ### C10 -/

/-- C10: the setters apply no masking to the supplied value — setting the
2-bit version field to 4 on the zero word flips the type field from 0 to
1, and setting the 4-bit subtype field to 16 produces a stored word
exceeding 16 significant bits. -/
theorem c10_setter_unmasked :
    getField (setField 0 FCField.version 4) FCField.ftype = 1 ∧
    getField 0 FCField.ftype = 0 ∧
    2 ^ fcWidth FCField.version ≤ 4 ∧
    65535 < setField 0 FCField.subtype 16 := by
  decide

/-! ### Helper lemmas for the IE loop -/

/-- One iteration of `_unpack_ies` over a buffer whose first element is
exactly sized: id byte, length byte equal to the payload length, payload,
then the rest. -/
lemma unpackIes_cons_exact (i : Nat) (p rest : List Nat) :
    unpackIes (i :: p.length :: (p ++ rest)) =
      (unpackIes rest).map
        (fun t => { id := i, len := p.length, payload := p,
                    schema := ieDecoderFor i } :: t) := by
  rw [unpackIes]
  simp [List.take_left, List.drop_left]

/-- Iteration count of the loop over an exactly-sized first element. -/
lemma iesSteps_cons_exact (i : Nat) (p rest : List Nat) :
    iesSteps (i :: p.length :: (p ++ rest)) = 1 + iesSteps rest := by
  rw [iesSteps]
  simp [List.drop_left]

/-- A well-formed IE concatenation decodes to exactly its groups. -/
lemma unpackIes_encode (specs : List (Nat × List Nat)) :
    unpackIes (encodeIes specs) =
      some (specs.map (fun g => { id := g.1, len := g.2.length, payload := g.2,
                                  schema := ieDecoderFor g.1 })) := by
  induction specs with
  | nil => simp [encodeIes, unpackIes]
  | cons g gs ih =>
    have he : encodeIes (g :: gs) = g.1 :: g.2.length :: (g.2 ++ encodeIes gs) := by
      simp [encodeIes]
    rw [he, unpackIes_cons_exact, ih]
    simp

/-- A well-formed IE concatenation of N groups takes exactly N iterations. -/
lemma iesSteps_encode (specs : List (Nat × List Nat)) :
    iesSteps (encodeIes specs) = specs.length := by
  induction specs with
  | nil => simp [encodeIes, iesSteps]
  | cons g gs ih =>
    have he : encodeIes (g :: gs) = g.1 :: g.2.length :: (g.2 ++ encodeIes gs) := by
      simp [encodeIes]
    rw [he, iesSteps_cons_exact, ih]
    simp [Nat.add_comm]

/-- A single trailing byte after a well-formed concatenation makes the
whole parse raise (IndexError on the missing length byte), losing every
element parsed before it. -/
lemma unpackIes_encode_trailing (specs : List (Nat × List Nat)) (b : Nat) :
    unpackIes (encodeIes specs ++ [b]) = none := by
  induction specs with
  | nil => simp [encodeIes, unpackIes]
  | cons g gs ih =>
    have he : encodeIes (g :: gs) ++ [b] =
        g.1 :: g.2.length :: (g.2 ++ (encodeIes gs ++ [b])) := by
      simp [encodeIes]
    rw [he, unpackIes_cons_exact, ih]
    rfl

/-! ### C2 -/

/-- C2 as stated is false at buffer [0x00, 0x05, 0x41]: the declared
payload (5 bytes) overruns the buffer, yet `_unpack_ies` does not stop
with a truncation error — Python's slice clamps and the loop returns a
partial element whose payload (1 byte) is shorter than its declared
length.  Moreover at buffer [0x00, 0x00, 0x07] one element parses
successfully and then the length byte of the next is missing: the loop
raises IndexError (`none`), returning nothing instead of the elements
parsed before the truncation point. -/
theorem c2_counterexample :
    unpackIes [0, 5, 65] =
      some [{ id := 0, len := 5, payload := [65], schema := IESchema.IE }] ∧
    ({ id := 0, len := 5, payload := [65], schema := IESchema.IE } : IEEntry).payload.length ≠
      ({ id := 0, len := 5, payload := [65], schema := IESchema.IE } : IEEntry).len ∧
    unpackIes [0, 0, 7] = none := by
  refine ⟨?_, by decide, by simp [unpackIes]⟩
  simp [unpackIes, ieDecoderFor, ie_decoder, IE_SSID, IE_RATES, IE_FH, IE_DS,
    IE_CF, IE_TIM, IE_IBSS, IE_HT_CAPA, IE_ESR, IE_HT_INFO]

/-- C2 amended: `_unpack_ies` never reads outside the buffer — every
returned element's bytes (id, declared length, payload) are a contiguous
infix of the input, and an overrunning payload is clamped to the bytes
available (`payload.length ≤ len`), the partial element being returned
rather than an error; a missing length byte (e.g. one stray byte after a
well-formed concatenation) instead raises IndexError (`none`), discarding
all previously parsed elements. -/
theorem c2_amended :
    (∀ buf ies, unpackIes buf = some ies →
      ∀ e ∈ ies, (e.id :: e.len :: e.payload) <:+: buf ∧ e.payload.length ≤ e.len) ∧
    (∀ specs b, unpackIes (encodeIes specs ++ [b]) = none) := by
  constructor
  · have main : ∀ n (buf : List Nat), buf.length ≤ n → ∀ ies, unpackIes buf = some ies →
        ∀ e ∈ ies, (e.id :: e.len :: e.payload) <:+: buf ∧ e.payload.length ≤ e.len := by
      intro n
      induction n with
      | zero =>
        intro buf hlen ies h e he
        have hb : buf = [] := List.length_eq_zero.mp (Nat.le_zero.mp hlen)
        subst hb
        simp [unpackIes] at h
        subst h
        simp at he
      | succ n ih =>
        intro buf hlen ies h e he
        match buf, hlen, h with
        | [], hlen, h =>
          simp [unpackIes] at h
          subst h
          simp at he
        | [x], hlen, h =>
          simp [unpackIes] at h
        | i :: L :: rest, hlen, h =>
          rw [unpackIes] at h
          simp only [Option.map_eq_some'] at h
          obtain ⟨t, ht, rfl⟩ := h
          rcases List.mem_cons.mp he with rfl | he
          · refine ⟨⟨[], rest.drop L, by simp [List.take_append_drop]⟩, ?_⟩
            simp [List.length_take]
          · have hrec := ih (rest.drop L) (by simp [List.length_drop] at hlen ⊢; omega) t ht e he
            have hsub : (rest.drop L) <:+: (i :: L :: rest) :=
              ⟨i :: L :: rest.take L, [], by simp [List.take_append_drop]⟩
            exact ⟨List.IsInfix.trans hrec.1 hsub, hrec.2⟩
    exact fun buf => main buf.length buf (le_refl _)
  · exact fun specs b => unpackIes_encode_trailing specs b

/-- Witness for the amended C2 at the overrunning buffer [0, 5, 65]. -/
theorem c2_amended_witness :
    (({ id := 0, len := 5, payload := [65], schema := IESchema.IE } : IEEntry).id ::
      ({ id := 0, len := 5, payload := [65], schema := IESchema.IE } : IEEntry).len ::
      ({ id := 0, len := 5, payload := [65], schema := IESchema.IE } : IEEntry).payload)
        <:+: [0, 5, 65] ∧
    ({ id := 0, len := 5, payload := [65], schema := IESchema.IE } : IEEntry).payload.length ≤
      ({ id := 0, len := 5, payload := [65], schema := IESchema.IE } : IEEntry).len :=
  c2_amended.1 [0, 5, 65]
    [{ id := 0, len := 5, payload := [65], schema := IESchema.IE }]
    (by simp [unpackIes, ieDecoderFor, ie_decoder, IE_SSID, IE_RATES, IE_FH, IE_DS,
      IE_CF, IE_TIM, IE_IBSS, IE_HT_CAPA, IE_ESR, IE_HT_INFO])
    _ (by simp)

/-! ### C6 -/

/-- C6: a buffer that is a well-formed concatenation of N byte-valued IEs
(id byte, length byte equal to the payload length, payload) decodes to
exactly the N matching elements, consuming the buffer in exactly N
iterations; in particular the SSID+rates example buffer decodes to its two
elements. -/
theorem c6_wellformed_roundtrip :
    (∀ specs : List (Nat × List Nat),
      (∀ g ∈ specs, g.1 < 256 ∧ g.2.length < 256 ∧ ∀ b ∈ g.2, b < 256) →
      unpackIes (encodeIes specs) =
        some (specs.map (fun g => { id := g.1, len := g.2.length, payload := g.2,
                                    schema := ieDecoderFor g.1 })) ∧
      iesSteps (encodeIes specs) = specs.length) ∧
    unpackIes [0x00, 0x03, 0x41, 0x42, 0x43, 0x01, 0x02, 0x82, 0x84] =
      some [{ id := 0, len := 3, payload := [0x41, 0x42, 0x43], schema := IESchema.IE },
            { id := 1, len := 2, payload := [0x82, 0x84], schema := IESchema.IE }] := by
  refine ⟨fun specs _ => ⟨unpackIes_encode specs, iesSteps_encode specs⟩, ?_⟩
  simp [unpackIes, ieDecoderFor, ie_decoder, List.lookup, IE_SSID, IE_RATES, IE_FH,
    IE_DS, IE_CF, IE_TIM, IE_IBSS, IE_HT_CAPA, IE_ESR, IE_HT_INFO]

/-- Witness for C6 at the concrete two-element scenario. -/
theorem c6_witness :
    unpackIes [0, 3, 65, 66, 67, 1, 2, 130, 132] =
      some [{ id := 0, len := 3, payload := [65, 66, 67], schema := IESchema.IE },
            { id := 1, len := 2, payload := [130, 132], schema := IESchema.IE }] ∧
    iesSteps [0, 3, 65, 66, 67, 1, 2, 130, 132] = 2 := by
  have h := c6_wellformed_roundtrip.1 [(0, [65, 66, 67]), (1, [130, 132])] (by decide)
  exact ⟨by simpa [encodeIes, ieDecoderFor, ie_decoder, IE_SSID, IE_RATES] using h.1,
         by simpa [encodeIes] using h.2⟩

/-! ### C8 -/

set_option maxRecDepth 4000 in
/-- C8: the fixed id table covers exactly ids 0,1,2,3,4,5,6,45,50,61, and
an element whose id byte is absent from it decodes with the generic
fallback schema `IE`, the raw payload bytes preserved, parsing continuing
with the following elements. -/
theorem c8_unknown_id_fallback :
    (∀ i < 256, (ie_decoder.lookup i).isSome = true ↔
      i ∈ ([0, 1, 2, 3, 4, 5, 6, 45, 50, 61] : List Nat)) ∧
    (∀ (i : Nat) (p rest : List Nat), ie_decoder.lookup i = none →
      unpackIes (i :: p.length :: (p ++ rest)) =
        (unpackIes rest).map
          (fun t => { id := i, len := p.length, payload := p,
                      schema := IESchema.IE } :: t)) := by
  constructor
  · decide
  · intro i p rest h
    rw [unpackIes_cons_exact]
    simp [ieDecoderFor, h]

/-- Witness for C8 at the unknown id 7. -/
theorem c8_witness :
    unpackIes ((7 : Nat) :: ([9] : List Nat).length :: ([9] ++ [])) =
      (unpackIes []).map
        (fun t => { id := 7, len := ([9] : List Nat).length, payload := [9],
                    schema := IESchema.IE } :: t) :=
  c8_unknown_id_fallback.2 7 [9] [] (by decide)

/-! ### C9 -/

/-- C9: the `_unpack_ies` loop always terminates — the iteration count is
bounded by the buffer length, and a successful parse performs one
iteration per returned element with each iteration consuming at least two
bytes (`2 * #elements ≤ buffer length`). -/
theorem c9_termination_bound :
    (∀ buf : List Nat, iesSteps buf ≤ buf.length) ∧
    (∀ buf ies, unpackIes buf = some ies →
      ies.length = iesSteps buf ∧ 2 * ies.length ≤ buf.length) := by
  constructor
  · have main : ∀ n (buf : List Nat), buf.length ≤ n → iesSteps buf ≤ buf.length := by
      intro n
      induction n with
      | zero =>
        intro buf hlen
        have hb : buf = [] := List.length_eq_zero.mp (Nat.le_zero.mp hlen)
        subst hb
        simp [iesSteps]
      | succ n ih =>
        intro buf hlen
        match buf, hlen with
        | [], hlen => simp [iesSteps]
        | [x], hlen => simp [iesSteps]
        | i :: L :: rest, hlen =>
          rw [iesSteps]
          have hrec := ih (rest.drop L) (by simp [List.length_drop] at hlen ⊢; omega)
          simp [List.length_drop] at hrec ⊢
          omega
    exact fun buf => main buf.length buf (le_refl _)
  · have main : ∀ n (buf : List Nat), buf.length ≤ n → ∀ ies, unpackIes buf = some ies →
        ies.length = iesSteps buf ∧ 2 * ies.length ≤ buf.length := by
      intro n
      induction n with
      | zero =>
        intro buf hlen ies h
        have hb : buf = [] := List.length_eq_zero.mp (Nat.le_zero.mp hlen)
        subst hb
        simp [unpackIes] at h
        simp [← h, iesSteps]
      | succ n ih =>
        intro buf hlen ies h
        match buf, hlen, h with
        | [], hlen, h =>
          simp [unpackIes] at h
          simp [← h, iesSteps]
        | [x], hlen, h =>
          simp [unpackIes] at h
        | i :: L :: rest, hlen, h =>
          rw [unpackIes] at h
          simp only [Option.map_eq_some'] at h
          obtain ⟨t, ht, rfl⟩ := h
          have hrec := ih (rest.drop L) (by simp [List.length_drop] at hlen ⊢; omega) t ht
          rw [iesSteps]
          simp [List.length_drop] at hrec ⊢
          omega
    exact fun buf => main buf.length buf (le_refl _)

/-- Witness for C9 at the two-byte buffer [0, 0]. -/
theorem c9_witness :
    ([{ id := 0, len := 0, payload := [], schema := IESchema.IE }] : List IEEntry).length =
      iesSteps [0, 0] ∧
    2 * ([{ id := 0, len := 0, payload := [], schema := IESchema.IE }] : List IEEntry).length ≤
      ([0, 0] : List Nat).length :=
  c9_termination_bound.2 [0, 0] [{ id := 0, len := 0, payload := [], schema := IESchema.IE }]
    (by simp [unpackIes, ieDecoderFor, ie_decoder, IE_SSID])

lemma fcMask_eq_shifted (f : FCField) :
    fcMask f = (2 ^ fcWidth f - 1) <<< fcShift f := by
  cases f <;> decide

lemma fc_range (f : FCField) : fcShift f + fcWidth f ≤ 16 := by
  cases f <;> decide

lemma fc_ranges_disjoint : ∀ f g : FCField, f ≠ g →
    fcShift f + fcWidth f ≤ fcShift g ∨ fcShift g + fcWidth g ≤ fcShift f := by
  decide

lemma set_get_roundtrip (k s : Nat) (hks : s + k ≤ 16) (w : Nat) (hw : w < 65536) :
    ((((w &&& ((2 ^ k - 1) <<< s)) >>> s) <<< s) |||
      (w &&& (65535 ^^^ ((2 ^ k - 1) <<< s)))) = w := by
  have h65535 : (65535 : Nat) = 2 ^ 16 - 1 := by norm_num
  rw [h65535]
  apply Nat.eq_of_testBit_eq
  intro i
  simp only [Nat.testBit_or, Nat.testBit_and, Nat.testBit_xor, Nat.testBit_shiftLeft,
    Nat.testBit_shiftRight, Nat.testBit_two_pow_sub_one, ge_iff_le]
  by_cases hsi : s ≤ i
  · have hrw : s + (i - s) = i := by omega
    rw [hrw]
    by_cases hik : i - s < k
    · have h16 : i < 16 := by omega
      simp [hsi, hik, h16]
    · by_cases h16 : i < 16
      · simp [hsi, hik, h16]
      · have h2 : (65536 : Nat) ≤ 2 ^ i := by
          calc (65536 : Nat) = 2 ^ 16 := by norm_num
            _ ≤ 2 ^ i := Nat.pow_le_pow_right (by norm_num) (by omega)
        have hw' : w.testBit i = false := Nat.testBit_lt_two_pow (lt_of_lt_of_le hw h2)
        simp [hsi, hik, h16, hw']
  · have h16 : i < 16 := by omega
    simp [hsi, h16]

lemma get_set_other (k s j t : Nat) (hkt : t + j ≤ 16)
    (hdisj : s + k ≤ t ∨ t + j ≤ s) (w v : Nat) (hv : v < 2 ^ k) :
    (((v <<< s) ||| (w &&& (65535 ^^^ ((2 ^ k - 1) <<< s)))) &&& ((2 ^ j - 1) <<< t)) >>> t =
      (w &&& ((2 ^ j - 1) <<< t)) >>> t := by
  have h65535 : (65535 : Nat) = 2 ^ 16 - 1 := by norm_num
  rw [h65535]
  apply Nat.eq_of_testBit_eq
  intro m
  simp only [Nat.testBit_or, Nat.testBit_and, Nat.testBit_xor, Nat.testBit_shiftLeft,
    Nat.testBit_shiftRight, Nat.testBit_two_pow_sub_one, ge_iff_le]
  have htm : t ≤ t + m := Nat.le_add_right t m
  have hsub : t + m - t = m := by omega
  rw [hsub]
  by_cases hmj : m < j
  · have hp16 : t + m < 16 := by omega
    rcases hdisj with hd | hd
    · have hs : s ≤ t + m := by omega
      have hvbit : v.testBit (t + m - s) = false := by
        apply Nat.testBit_lt_two_pow
        calc v < 2 ^ k := hv
          _ ≤ 2 ^ (t + m - s) := Nat.pow_le_pow_right (by norm_num) (by omega)
      have hnotk : ¬(t + m - s < k) := by omega
      simp [htm, hmj, hp16, hs, hvbit, hnotk]
    · have hns : ¬(s ≤ t + m) := by omega
      simp [htm, hmj, hp16, hns]
  · simp [hmj]

theorem c5_codec_roundtrip_isolation :
    (∀ w < 65536, ∀ f : FCField, setField w f (getField w f) = w) ∧
    (∀ (w : Nat) (f g : FCField), f ≠ g → ∀ v < 2 ^ fcWidth f,
      getField (setField w f v) g = getField w g) ∧
    (∀ f g : FCField, f ≠ g → fcMask f &&& fcMask g = 0) ∧
    (fcMask .version ||| fcMask .ftype ||| fcMask .subtype ||| fcMask .to_ds |||
     fcMask .from_ds ||| fcMask .more_frag ||| fcMask .retry ||| fcMask .pwr_mgt |||
     fcMask .more_data ||| fcMask .protectedF ||| fcMask .order) = 65535 := by
  refine ⟨?_, ?_, by decide, by decide⟩
  · intro w hw f
    have h := set_get_roundtrip (fcWidth f) (fcShift f) (fc_range f) w hw
    simpa [getField, setField, fcMask_eq_shifted f] using h
  · intro w f g hfg v hv
    have hd := fc_ranges_disjoint f g hfg
    have h := get_set_other (fcWidth f) (fcShift f) (fcWidth g) (fcShift g)
      (fc_range g) hd w v hv
    simpa [getField, setField, fcMask_eq_shifted f, fcMask_eq_shifted g] using h

theorem c5_witness :
    setField 4660 FCField.version (getField 4660 FCField.version) = 4660 ∧
    getField (setField 4660 FCField.version 3) FCField.ftype =
      getField 4660 FCField.ftype ∧
    fcMask FCField.version &&& fcMask FCField.ftype = 0 :=
  ⟨c5_codec_roundtrip_isolation.1 4660 (by decide) FCField.version,
   c5_codec_roundtrip_isolation.2.1 4660 FCField.version FCField.ftype (by decide) 3 (by decide),
   c5_codec_roundtrip_isolation.2.2.1 FCField.version FCField.ftype (by decide)⟩
